import Mathlib

/-!
Verification of the React-Native-Api-Manager repository.

The development shallowly embeds the JavaScript sources:
* `src/src/libraries/ApiClient.js` — `safeJsonParse`, `_parseUriAndMethod`,
  and the response/error handling section of `_send` (lines 110–147);
* `src/src/services/ApiManager.js` — `register` / `use` on the registry state;
* `src/src/hooks/useApiBase.js` — the `send` trigger as a state transition.

JavaScript values appearing in parsed response bodies are modelled by the
inductive type `Json`; `JSON.parse` itself is treated as an abstract
parameter `parse : String → Except JsErr Json` (a failing parse returns the
thrown error), so every theorem about `safeJsonParse` holds for the real
parser.  JavaScript callbacks (interceptors, hook callbacks) are modelled as
total functions; their invocations are recorded in an explicit trace.
-/

/-- A JSON value, as produced by a successful `JSON.parse`. -/
inductive Json : Type
  | null : Json
  | bool (b : Bool) : Json
  | num (n : Int) : Json
  | str (s : String) : Json
  | arr (elems : List Json) : Json
  | obj (fields : List (String × Json)) : Json

/-- JavaScript truthiness of a `Json` value (`undefined` is handled by
`Option` at use sites). -/
def jsTruthy : Json → Bool
  | Json.null => false
  | Json.bool b => b
  | Json.num n => n != 0
  | Json.str s => s != ""
  | Json.arr _ => true
  | Json.obj _ => true

/-- Property access `v.k` on a parsed JSON value: defined only on objects,
`undefined` (here `none`) everywhere else.  For objects the first binding
wins, matching the unique-key invariant of `JSON.parse` output. -/
def getMember : Json → String → Option Json
  | Json.obj fields, k => (fields.find? (fun f => f.1 = k)).map (fun f => f.2)
  | _, _ => none

/-- The JavaScript short-circuit `a || b` applied to a possibly-`undefined`
value `a` (`none` = `undefined`). -/
def jsOr (a : Option Json) (b : Json) : Json :=
  match a with
  | some v => if jsTruthy v then v else b
  | none => b

/-- A JavaScript error object.  `name` distinguishes `AbortError`; the
`ApiError` subclass carries `status` and `data` in addition. -/
structure JsErr where
  name : String
  message : Json
  status : Option Int := none
  data : Option (Json ⊕ String) := none

/-- `new ApiError(message, status, data)` from `ApiClient.js` lines 4–16,
with `data` either a parsed body (`Sum.inl`) or raw text (`Sum.inr`). -/
def mkApiError (message : Json) (status : Int) (d : Json ⊕ String) : JsErr :=
  { name := "ApiError", message := message, status := some status, data := some d }

/-- Index of the first character satisfying `p`, or `none`. -/
def charIdx (p : Char → Bool) : List Char → Option Nat
  | [] => none
  | c :: cs => if p c then some 0 else (charIdx p cs).map (fun i => i + 1)

/-- `String.prototype.indexOf` for a single character (`-1` when absent). -/
def jsIndexOf (s : String) (c : Char) : Int :=
  match charIdx (fun x => x = c) s.toList with
  | some i => (i : Int)
  | none => -1

/-- `String.prototype.lastIndexOf` for a single character (`-1` when absent). -/
def jsLastIndexOf (s : String) (c : Char) : Int :=
  match charIdx (fun x => x = c) s.toList.reverse with
  | some i => ((s.length - 1 - i : Nat) : Int)
  | none => -1

/-- `String.prototype.substring(a, b)`: each argument is clamped to
`[0, length]` and the arguments are swapped when `a > b`. -/
def jsSubstring (s : String) (a b : Int) : String :=
  let len : Int := (s.length : Int)
  let clamp : Int → Nat := fun x => (max 0 (min x len)).toNat
  let a' := clamp a
  let b' := clamp b
  let lo := Nat.min a' b'
  let hi := Nat.max a' b'
  String.mk ((s.toList.drop lo).take (hi - lo))

/-- The `startIndex` computation of the rescue branch of `safeJsonParse`
(`ApiClient.js` lines 29–35). -/
def rescueStartIndex (responseBody : String) : Int :=
  let firstBracket := jsIndexOf responseBody '\x7b'
  let firstSquare := jsIndexOf responseBody '['
  if firstBracket = -1 then firstSquare
  else if firstSquare = -1 then firstBracket
  else min firstBracket firstSquare

/-- The `endIndex` computation of the rescue branch (lines 39–41). -/
def rescueEndIndex (responseBody : String) : Int :=
  max (jsLastIndexOf responseBody '\x7d') (jsLastIndexOf responseBody ']')

/-- `safeJsonParse` from `ApiClient.js` lines 23–51, parameterised by the
behaviour of `JSON.parse`.  A falsy (empty) body short-circuits to `null`;
otherwise a direct parse is attempted and, on failure, the rescue slice
between the delimiter indices is reparsed, any rescue failure rethrowing the
original `parseError`. -/
def safeJsonParse (parse : String → Except JsErr Json) (responseBody : String) :
    Except JsErr Json :=
  if responseBody = "" then Except.ok Json.null
  else
    match parse responseBody with
    | Except.ok v => Except.ok v
    | Except.error parseError =>
      let startIndex := rescueStartIndex responseBody
      if startIndex = -1 then Except.error parseError
      else
        let endIndex := rescueEndIndex responseBody
        if endIndex = -1 then Except.error parseError
        else
          let jsonString := jsSubstring responseBody startIndex (endIndex + 1)
          match parse jsonString with
          | Except.ok v => Except.ok v
          | Except.error _ => Except.error parseError

/-- `String.prototype.split` with a single-character separator. -/
def jsSplit (sep : Char) : List Char → List (List Char)
  | [] => [[]]
  | c :: cs =>
    if c = sep then [] :: jsSplit sep cs
    else
      match jsSplit sep cs with
      | [] => [[c]]
      | g :: gs => (c :: g) :: gs

/-- `Array.prototype.join` with a single-character separator. -/
def jsJoin (sep : Char) : List (List Char) → List Char
  | [] => []
  | [g] => g
  | g :: gs => g ++ sep :: jsJoin sep gs

/-- The `validMethods` array of `_parseUriAndMethod` (`ApiClient.js` line 63). -/
def validMethods : List String := ["GET", "POST", "PUT", "DELETE", "PATCH", "HEAD"]

/-- `_parseUriAndMethod` from `ApiClient.js` lines 59–69: returns the pair
`(method, endpoint)`. -/
def parseUriAndMethod (uri : String) (defaultMethod : String := "GET") : String × String :=
  if uri.toList.contains ':' then
    match jsSplit ':' uri.toList with
    | [] => (defaultMethod, uri)
    | method :: rest =>
      let upperMethod := String.mk (method.map Char.toUpper)
      if validMethods.contains upperMethod then
        (upperMethod, String.mk (jsJoin ':' rest))
      else (defaultMethod, uri)
  else (defaultMethod, uri)

/-- Client configuration fields consulted by the response/error section of
`_send` (the request-preparation fields — base URL, headers — are upstream of
everything the claims discuss and are not needed here).  Interceptors are
total functions; `none` means the interceptor is not configured. -/
structure ClientConfig where
  returnNullOnAbort : Option Bool := none
  onResponse : Option (Json → Json) := none
  onError : Option (JsErr → Except JsErr Json) := none

/-- Outcome of `await fetch(url, requestOptions)` followed by
`await response.text()`: either a settled HTTP response with raw body text,
or a rejection (network failure, or the abort signal firing, which rejects
with an error named `AbortError`). -/
inductive FetchOutcome : Type
  | response (ok : Bool) (status : Int) (text : String) : FetchOutcome
  | reject (e : JsErr) : FetchOutcome

/-- The `try` body of `_send` from the `fetch` call on (`ApiClient.js`
lines 110–133): JSON parsing with `safeJsonParse`, the HTTP error raise, and
the success interceptor pipeline (config-level then call-level
`onResponse`). -/
def sendAttempt (parse : String → Except JsErr Json) (cfg : ClientConfig)
    (callOnResponse : Option (Json → Json)) : FetchOutcome → Except JsErr Json
  | FetchOutcome.reject e => Except.error e
  | FetchOutcome.response ok status text =>
    match safeJsonParse parse text with
    | Except.error _ =>
      Except.error (mkApiError (Json.str "Invalid JSON response from server.") status (Sum.inr text))
    | Except.ok responseData =>
      if !ok then
        Except.error
          (mkApiError (jsOr (getMember responseData "message") (Json.str "Request failed"))
            status (Sum.inl responseData))
      else
        let d1 := match cfg.onResponse with
          | some f => f responseData
          | none => responseData
        let d2 := match callOnResponse with
          | some f => f d1
          | none => d1
        Except.ok d2

/-- The full response/error pipeline of `_send` (`ApiClient.js` lines
110–147): the `try` body above together with the `catch` clause — the
abort-to-null special case, then the `onError` interceptor, then rethrow.
(`onFinally` runs after either branch and cannot alter the outcome, so it is
omitted.) -/
def sendOutcome (parse : String → Except JsErr Json) (cfg : ClientConfig)
    (callOnResponse : Option (Json → Json)) (out : FetchOutcome) : Except JsErr Json :=
  match sendAttempt parse cfg callOnResponse out with
  | Except.ok v => Except.ok v
  | Except.error err =>
    if err.name = "AbortError" && !(cfg.returnNullOnAbort = some false) then Except.ok Json.null
    else
      match cfg.onError with
      | some h => h err
      | none => Except.error err

/-- An `ApiClient` instance as constructed by `createApiClient(config)`
(`ApiClient.js` lines 76–205): the instance is determined by its
configuration (plus per-instance mutable controller/header state, which the
registry never touches). -/
structure ApiClientInst where
  config : ClientConfig

/-- `createApiClient` viewed at registry granularity. -/
def createApiClient (config : ClientConfig) : ApiClientInst :=
  { config := config }

/-- The private state of `createApiManager` (`ApiManager.js` lines 9–11):
the `registeredClients` map (insertion-ordered, unique keys) and the
`defaultClientName` (`null` when unset). -/
structure RegistryState where
  registeredClients : List (String × ApiClientInst)
  defaultClientName : Option String

/-- The empty registry, as created by `createApiManager()`. -/
def emptyRegistry : RegistryState :=
  { registeredClients := [], defaultClientName := none }

/-- `Map.prototype.get` on the `registeredClients` map. -/
def lookupClient (s : RegistryState) (name : String) : Option ApiClientInst :=
  (s.registeredClients.find? (fun e => e.1 = name)).map (fun e => e.2)

/-- `register(name, config, isDefault)` from `ApiManager.js` lines 23–47.
All three guards throw before any mutation; on success the new client is
stored, optionally becomes the default, and is returned.  (The dynamic
`typeof name !== 'string'` half of the first guard is subsumed by typing
`name : String`; the empty-string half is rendered explicitly.) -/
def register (s : RegistryState) (name : String) (config : ClientConfig)
    (isDefault : Bool := false) : Except String (ApiClientInst × RegistryState) :=
  if name = "" then
    Except.error "API client name must be a non-empty string"
  else if (s.registeredClients.find? (fun e => e.1 = name)).isSome then
    Except.error "already registered"
  else if isDefault && s.defaultClientName.isSome then
    Except.error "a default API client is already registered"
  else
    let apiClient := createApiClient config
    Except.ok (apiClient,
      { registeredClients := s.registeredClients ++ [(name, apiClient)],
        defaultClientName := if isDefault then some name else s.defaultClientName })

/-- `use(name)` from `ApiManager.js` lines 56–72.  `name || defaultClientName`
makes an empty (falsy) or absent name fall back to the default. -/
def use (s : RegistryState) (name : Option String := none) : Except String ApiClientInst :=
  let clientName : Option String :=
    match name with
    | some n => if n = "" then s.defaultClientName else some n
    | none => s.defaultClientName
  match clientName with
  | none => Except.error "manager.use() was called without a name, but no default client has been registered"
  | some n =>
    match lookupClient s n with
    | none => Except.error "no API client with that name has been registered"
    | some apiClient => Except.ok apiClient

/-- One `register` call made against the registry, as data. -/
structure RegOp where
  name : String
  config : ClientConfig
  isDefault : Bool

/-- Apply one `register` call to the registry state; a throwing call leaves
the state unchanged (all `register` guards throw before mutating). -/
def applyOp (s : RegistryState) (op : RegOp) : RegistryState :=
  match register s op.name op.config op.isDefault with
  | Except.ok r => r.2
  | Except.error _ => s

/-- Apply a sequence of `register` calls in order. -/
def applyOps (s : RegistryState) (ops : List RegOp) : RegistryState :=
  ops.foldl applyOp s

/-- Hook parameter objects (`params`, `oneTimeParams`): a JavaScript object
as an insertion-ordered association list where a later binding for a key
shadows an earlier one, so that object spread and property assignment are
both list append. -/
abbrev Params : Type := List (String × Json)

/-- Property read `p.k` under the last-binding-wins discipline. -/
def getParam (p : Params) (k : String) : Option Json :=
  (p.reverse.find? (fun e => e.1 = k)).map (fun e => e.2)

/-- Property assignment `p.k = v`. -/
def setParam (p : Params) (k : String) (v : Json) : Params :=
  p ++ [(k, v)]

/-- Object spread `{...a, ...b}`. -/
def spreadParams (a b : Params) : Params :=
  a ++ b

/-- The pagination metadata object `{page, hasMore, ...}` that a configured
`getMetadata` extracts, typed per the PaginationPolicy contract; `page`
is `none` when the field is absent. -/
structure Meta where
  page : Option Int
  hasMore : Bool

/-- A pagination policy: the three caller-supplied functions.  `merge`
receives `currentResponse?.results` (possibly `undefined`) and
`currentParams.page` (a JavaScript property read, possibly `undefined`). -/
structure PaginationPolicy (D I : Type) where
  getResults : D → List I
  getMetadata : D → Option Meta
  merge : Option (List I) → List I → Option Json → List I

/-- The response cell of the hook (local state or the bound store path):
`null` initially, a plain payload stored by the non-pagination branch, or a
`{results, metadata}` record stored by the pagination branch (seeded to
`{results: []}` — i.e. metadata absent — when pagination is configured). -/
inductive HookResp (D I : Type) : Type
  | null : HookResp D I
  | data (d : D) : HookResp D I
  | paged (results : Option (List I)) (metadata : Option Meta) : HookResp D I

/-- `currentResponse?.results`: present only on a pagination-shaped record
(with pagination configured the cell only ever holds such records). -/
def resultsOf {D I : Type} : HookResp D I → Option (List I)
  | HookResp.paged r _ => r
  | _ => none

/-- `currentResponse?.metadata`: present only on a pagination-shaped record. -/
def metadataOf {D I : Type} : HookResp D I → Option Meta
  | HookResp.paged _ m => m
  | _ => none

/-- The `loadingStates` record of `useApiBase`. -/
structure LoadingStates where
  isInitialLoading : Bool
  isRefreshing : Bool
  isLoadingMore : Bool
deriving DecidableEq

/-- All three flags cleared, as written by the `finally` block and the
`validateParams` bail-out. -/
def allIdle : LoadingStates :=
  { isInitialLoading := false, isRefreshing := false, isLoadingMore := false }

/-- The mode tag accepted by the hook trigger `send`. -/
inductive Mode : Type
  | initial : Mode
  | refresh : Mode
  | pagination : Mode
deriving DecidableEq

/-- The per-instance hook state touched by `send`: the `params`, `error` and
`loadingStates` React state, the response cell (§ local or store-backed —
modelled as one cell), and the `hasFetchedOnce` / `lastFetchTimestamp`
refs. -/
structure HookState (D I E : Type) where
  params : Params
  error : Option E
  loading : LoadingStates
  response : HookResp D I
  hasFetchedOnce : Bool
  lastFetchTimestamp : Option Nat

/-- The hook settings consulted by `send` (`useApiBase.js` lines 14–40):
`pagination` and the three transform/validation functions, with the same
defaults as the `useMemo` settings object.  The five lifecycle callbacks
have externally visible effects only, so their invocations are recorded in
the trace rather than modelled as functions. -/
structure HookSettings (D I : Type) where
  pagination : Option (PaginationPolicy D I) := none
  validateParams : Params → Bool := fun _ => true
  filterParams : Params → Params := fun p => p
  filterResponse : D → D := fun d => d

/-- How the awaited `apiClient.current.request(...)` promise settles:
fulfilled with a payload, fulfilled with the abort sentinel `null`, or
rejected. -/
inductive NetOutcome (D E : Type) : Type
  | success (d : D) : NetOutcome D E
  | nullResult : NetOutcome D E
  | failure (e : E) : NetOutcome D E

/-- Externally observable events of one `send` invocation: which callbacks
ran, whether the network request was issued, and with what body. -/
structure Trace (D : Type) where
  onSubmitCalled : Bool
  onRefreshCalled : Bool
  networkCalled : Bool
  sentBody : Option Params
  onSuccessArg : Option (D × Params)
  onErrorCalled : Bool
  onCompletedCalled : Bool

/-- The empty trace: nothing observed. -/
def emptyTrace {D : Type} : Trace D :=
  { onSubmitCalled := false, onRefreshCalled := false, networkCalled := false,
    sentBody := none, onSuccessArg := none, onErrorCalled := false,
    onCompletedCalled := false }

/-- The `setLoadingStates` update at the start of a trigger
(`useApiBase.js` lines 100–105). -/
def loadingFor {D I E : Type} (mode : Mode) (s : HookState D I E) : LoadingStates :=
  { isInitialLoading := mode = Mode.initial && !s.hasFetchedOnce,
    isRefreshing := mode = Mode.refresh,
    isLoadingMore := mode = Mode.pagination }

/-- The hook state as it stands while the request is in flight: loading
flags set for the mode, previous error cleared (lines 100–106). -/
def midState {D I E : Type} (mode : Mode) (s : HookState D I E) : HookState D I E :=
  { s with loading := loadingFor mode s, error := none }

/-- `currentParams` (lines 108–113): params spread with the one-time
override, then — for a pagination trigger with a policy configured —
`page` set to the stored metadata page (`|| 0`) plus one. -/
def currentParamsOf {D I E : Type} (st : HookSettings D I) (s : HookState D I E)
    (mode : Mode) (oneTime : Params) : Params :=
  let merged := spreadParams s.params oneTime
  if mode = Mode.pagination && st.pagination.isSome then
    let page : Int := ((metadataOf s.response).bind (fun m => m.page)).getD 0
    setParam merged "page" (Json.num (page + 1))
  else merged

/-- `finalParams` (line 114): `filterParams` applied to `currentParams`. -/
def finalParamsOf {D I E : Type} (st : HookSettings D I) (s : HookState D I E)
    (mode : Mode) (oneTime : Params) : Params :=
  st.filterParams (currentParamsOf st s mode oneTime)

/-- The trace common to every run that reaches the network call: `onSubmit`
always, `onRefresh` for refresh triggers, and the request body
`finalParams` (lines 121–126). -/
def requestTrace {D I E : Type} (st : HookSettings D I) (s : HookState D I E)
    (mode : Mode) (oneTime : Params) : Trace D :=
  { onSubmitCalled := true, onRefreshCalled := mode = Mode.refresh,
    networkCalled := true, sentBody := some (finalParamsOf st s mode oneTime),
    onSuccessArg := none, onErrorCalled := false, onCompletedCalled := false }

/-- The body of `send` after the in-flight guard (`useApiBase.js` lines
100–153), as a pure transition.  `net` is how the awaited request settles
and `mounted` is the value of `isMounted.current` once it has; `now` is
`Date.now()` at success time. -/
def sendBody {D I E : Type} (st : HookSettings D I) (s : HookState D I E) (mode : Mode)
    (oneTime : Params) (net : NetOutcome D E) (mounted : Bool) (now : Nat) :
    HookState D I E × Trace D :=
  let s1 := midState mode s
  let currentParams := currentParamsOf st s mode oneTime
  let finalParams := finalParamsOf st s mode oneTime
  if !st.validateParams finalParams then
    ({ s1 with loading := allIdle }, emptyTrace)
  else
    let tr0 : Trace D := requestTrace st s mode oneTime
    match net with
    | NetOutcome.success d =>
      if !mounted then (s1, tr0)
      else
        let filteredData := st.filterResponse d
        let s2 := { s1 with hasFetchedOnce := true, lastFetchTimestamp := some now }
        let s3 :=
          match st.pagination with
          | some pg =>
            let newResults := pg.getResults d
            let newMetadata := pg.getMetadata d
            let mergedResults :=
              pg.merge (resultsOf s.response) newResults (getParam currentParams "page")
            { s2 with response := HookResp.paged (some mergedResults) newMetadata }
          | none => { s2 with response := HookResp.data filteredData }
        let tr1 := { tr0 with onSuccessArg := some (filteredData, finalParams) }
        ({ s3 with loading := allIdle }, { tr1 with onCompletedCalled := true })
    | NetOutcome.nullResult =>
      if mounted then ({ s1 with loading := allIdle }, { tr0 with onCompletedCalled := true })
      else (s1, tr0)
    | NetOutcome.failure e =>
      let s2 := if mounted then { s1 with error := some e } else s1
      let tr1 := { tr0 with onErrorCalled := true }
      if mounted then ({ s2 with loading := allIdle }, { tr1 with onCompletedCalled := true })
      else (s2, tr1)

/-- `send` from `useApiBase.js` lines 94–154: the in-flight guard (lines
96–98) followed by the body above. -/
def send {D I E : Type} (st : HookSettings D I) (s : HookState D I E) (mode : Mode)
    (oneTime : Params) (net : NetOutcome D E) (mounted : Bool) (now : Nat) :
    HookState D I E × Trace D :=
  if (s.loading.isInitialLoading || s.loading.isRefreshing)
      && (!(mode = Mode.pagination) || st.pagination.isNone) then
    (s, emptyTrace)
  else
    sendBody st s mode oneTime net mounted now

/-- Minimum of two optional indices, treating `none` as +infinity. -/
def optMinIdx : Option Nat → Option Nat → Option Nat
  | none, b => b
  | some i, none => some i
  | some i, some j => some (min i j)

/-- Index of the earliest opening JSON delimiter, the two candidates of the
rescue branch. -/
def firstDelimIdx (s : String) : Option Nat :=
  charIdx (fun c => c = '\x7b' || c = '[') s.toList

/-- Index of the latest closing JSON delimiter, the two candidates of the
rescue branch. -/
def lastCloseIdx (s : String) : Option Nat :=
  (charIdx (fun c => c = '\x7d' || c = ']') s.toList.reverse).map
    (fun i => s.length - 1 - i)

theorem charIdx_or (p q : Char → Bool) (l : List Char) :
    charIdx (fun c => p c || q c) l = optMinIdx (charIdx p l) (charIdx q l) := by
  induction l with
  | nil => rfl
  | cons c cs ih =>
    by_cases hp : p c = true <;> by_cases hq : q c = true <;>
        simp [charIdx, hp, hq, ih] <;>
      cases charIdx p cs <;> cases charIdx q cs <;> simp [optMinIdx] <;> omega

theorem charIdx_lt_length (p : Char → Bool) (l : List Char) (i : Nat)
    (h : charIdx p l = some i) : i < l.length := by
  induction l generalizing i with
  | nil => simp [charIdx] at h
  | cons c cs ih =>
    simp only [List.length_cons]
    by_cases hp : p c = true
    · simp [charIdx, hp] at h
      omega
    · simp [charIdx, hp] at h
      obtain ⟨j, hj, rfl⟩ := h
      have := ih j hj
      omega

theorem rescueStartIndex_eq (s : String) :
    rescueStartIndex s =
      (match firstDelimIdx s with
       | some i => (i : Int)
       | none => -1) := by
  unfold rescueStartIndex firstDelimIdx jsIndexOf
  rw [charIdx_or]
  cases h1 : charIdx (fun x => x = '\x7b') s.toList <;>
    cases h2 : charIdx (fun x => x = '[') s.toList <;>
      simp [optMinIdx] <;> omega

theorem rescueEndIndex_eq (s : String) :
    rescueEndIndex s =
      (match lastCloseIdx s with
       | some j => (j : Int)
       | none => -1) := by
  unfold rescueEndIndex lastCloseIdx jsLastIndexOf
  rw [charIdx_or]
  cases h1 : charIdx (fun x => x = '\x7d') s.toList.reverse <;>
    cases h2 : charIdx (fun x => x = ']') s.toList.reverse <;>
      simp [optMinIdx]
  · omega
  · omega
  · rename_i i j
    have hnat : max (s.length - 1 - i) (s.length - 1 - j) = s.length - 1 - min i j := by
      omega
    rw [← Nat.cast_max, hnat]

theorem jsSplit_ne_nil (sep : Char) (l : List Char) : jsSplit sep l ≠ [] := by
  cases l with
  | nil => simp [jsSplit]
  | cons c cs =>
    by_cases h : c = sep
    · simp [jsSplit, h]
    · simp only [jsSplit, h, if_false]
      cases jsSplit sep cs <;> simp

theorem jsJoin_cons_cons (sep : Char) (c : Char) (g : List Char) (gs : List (List Char)) :
    jsJoin sep ((c :: g) :: gs) = c :: jsJoin sep (g :: gs) := by
  cases gs <;> rfl

theorem jsJoin_jsSplit (sep : Char) (l : List Char) :
    jsJoin sep (jsSplit sep l) = l := by
  induction l with
  | nil => rfl
  | cons c cs ih =>
    by_cases h : c = sep
    · subst h
      simp only [jsSplit, if_pos rfl]
      obtain ⟨g, gs, hg⟩ : ∃ g gs, jsSplit c cs = g :: gs := by
        cases hs : jsSplit c cs with
        | nil => exact absurd hs (jsSplit_ne_nil _ _)
        | cons g gs => exact ⟨g, gs, rfl⟩
      rw [hg]
      show [] ++ c :: jsJoin c (g :: gs) = c :: cs
      rw [← hg, ih]
      rfl
    · simp only [jsSplit, h, if_false]
      cases hs : jsSplit sep cs with
      | nil => exact absurd hs (jsSplit_ne_nil _ _)
      | cons g gs =>
        rw [jsJoin_cons_cons, ← hs, ih]

theorem jsSplit_append (sep : Char) (pre rest : List Char) (h : sep ∉ pre) :
    jsSplit sep (pre ++ sep :: rest) = pre :: jsSplit sep rest := by
  induction pre with
  | nil => simp [jsSplit]
  | cons c cs ih =>
    have hc : ¬ c = sep := fun e => h (by simp [e])
    have h2 : sep ∉ cs := fun hm => h (List.mem_cons_of_mem _ hm)
    show jsSplit sep (c :: (cs ++ sep :: rest)) = (c :: cs) :: jsSplit sep rest
    rw [jsSplit, if_neg hc, ih h2]

/-- The method list as the specification words it: the source list plus
`OPTIONS`.  Kept only to compare the claimed behaviour with the code. -/
def claimedValidMethods : List String :=
  ["GET", "POST", "PUT", "DELETE", "PATCH", "HEAD", "OPTIONS"]

/-- `_parseUriAndMethod` as the specification describes it, differing from
the source only in consulting `claimedValidMethods`. -/
def parseUriAndMethodClaimed (uri : String) (defaultMethod : String := "GET") :
    String × String :=
  if uri.toList.contains ':' then
    match jsSplit ':' uri.toList with
    | [] => (defaultMethod, uri)
    | method :: rest =>
      let upperMethod := String.mk (method.map Char.toUpper)
      if claimedValidMethods.contains upperMethod then
        (upperMethod, String.mk (jsJoin ':' rest))
      else (defaultMethod, uri)
  else (defaultMethod, uri)

/-- C5 (counterexample): the claim lists `OPTIONS` among the recognised
method words, but the source list stops at `HEAD`, so `"options:users"` is
parsed as a whole endpoint with the default method rather than as method
`OPTIONS` with endpoint `"users"`. -/
theorem C5_counterexample :
    parseUriAndMethod "options:users" "GET" = ("GET", "options:users")
    ∧ parseUriAndMethodClaimed "options:users" "GET" = ("OPTIONS", "users") := by
  constructor
  · rfl
  · rfl

/-- C5 (amended): request-target parsing with the recognised method set
`{GET, POST, PUT, DELETE, PATCH, HEAD}` (no `OPTIONS`): a target with no
colon is all endpoint under the default method; a target whose segment
before the first colon case-insensitively matches a recognised method
yields that method uppercased with the remainder (further colons preserved)
as endpoint; any other target is all endpoint under the default method. -/
theorem C5_method_parsing (uri defaultMethod : String) :
    (uri.toList.contains ':' = false →
      parseUriAndMethod uri defaultMethod = (defaultMethod, uri))
    ∧ (∀ pre rest, uri.toList = pre ++ ':' :: rest → ':' ∉ pre →
        (String.mk (pre.map Char.toUpper) ∈ validMethods →
          parseUriAndMethod uri defaultMethod =
            (String.mk (pre.map Char.toUpper), String.mk rest))
        ∧ (String.mk (pre.map Char.toUpper) ∉ validMethods →
          parseUriAndMethod uri defaultMethod = (defaultMethod, uri))) := by
  constructor
  · intro h
    have h' : ¬ (uri.toList.contains ':' = true) := fun hc => by
      rw [hc] at h
      exact Bool.noConfusion h
    rw [parseUriAndMethod, if_neg h']
  · intro pre rest huri hpre
    have hcontains : uri.toList.contains ':' = true := by
      rw [huri]
      exact List.elem_iff.mpr (by simp)
    have hsplit : jsSplit ':' uri.toList = pre :: jsSplit ':' rest := by
      rw [huri]
      exact jsSplit_append ':' pre rest hpre
    constructor
    · intro hmem
      have hmem' : validMethods.contains (String.mk (pre.map Char.toUpper)) = true :=
        List.elem_iff.mpr hmem
      rw [parseUriAndMethod, if_pos hcontains, hsplit]
      simp only [hmem', if_true]
      rw [jsJoin_jsSplit]
    · intro hmem
      have hmem' : ¬ validMethods.contains (String.mk (pre.map Char.toUpper)) = true :=
        fun hc => hmem (List.elem_iff.mp hc)
      rw [parseUriAndMethod, if_pos hcontains, hsplit]
      exact if_neg hmem'

/-- C5 (witness): the amended parsing theorem evaluated at `"post:users"`,
`"users"` and `"http://host/x"`. -/
theorem C5_method_parsing_witness :
    parseUriAndMethod "post:users" "GET" = ("POST", "users")
    ∧ parseUriAndMethod "users" "GET" = ("GET", "users")
    ∧ parseUriAndMethod "http://host/x" "GET" = ("GET", "http://host/x") := by
  refine ⟨?_, ?_, ?_⟩
  · exact ((C5_method_parsing "post:users" "GET").2
      "post".toList "users".toList rfl (by decide)).1 (by decide)
  · exact (C5_method_parsing "users" "GET").1 (by decide)
  · exact ((C5_method_parsing "http://host/x" "GET").2
      "http".toList "//host/x".toList rfl (by decide)).2 (by decide)

/-- The error object a failing `JSON.parse` throws in the scenarios below. -/
def demoParseErr : JsErr :=
  { name := "SyntaxError", message := Json.str "Unexpected token" }

/-- A concrete stand-in for `JSON.parse` that agrees with it on every string
the concrete scenarios below evaluate it at: the single numeral `"5"`
parses to the number `5`, everything else fails. -/
def demoParse : String → Except JsErr Json := fun s =>
  if s = "5" then Except.ok (Json.num 5) else Except.error demoParseErr

/-- The rescue behaviour as the claim words it: slice from the earliest
opening-delimiter index `i` to the latest closing-delimiter index `j`
inclusive (an empty slice when `j < i`), reparse, and propagate the
original error if no opening delimiter exists, no closing delimiter exists,
or the reparse fails.  Kept only to compare the claimed behaviour with the
code. -/
def safeJsonParseClaimed (parse : String → Except JsErr Json) (responseBody : String) :
    Except JsErr Json :=
  if responseBody = "" then Except.ok Json.null
  else
    match parse responseBody with
    | Except.ok v => Except.ok v
    | Except.error parseError =>
      match firstDelimIdx responseBody, lastCloseIdx responseBody with
      | none, _ => Except.error parseError
      | some _, none => Except.error parseError
      | some i, some j =>
        match parse (String.mk ((responseBody.toList.drop i).take (j + 1 - i))) with
        | Except.ok v => Except.ok v
        | Except.error _ => Except.error parseError

/-- C6 (counterexample): on the body `"]5{"` the earliest opening delimiter
(index 2) lies after the latest closing delimiter (index 0), so the claimed
slice is empty and the claim demands the original parse error; but
`substring(2, 1)` swaps its bounds in JavaScript, the rescue parses `"5"`,
and `safeJsonParse` returns the number `5` instead of the error. -/
theorem C6_counterexample :
    safeJsonParse demoParse "]5\x7b" = Except.ok (Json.num 5)
    ∧ safeJsonParseClaimed demoParse "]5\x7b" = Except.error demoParseErr
    ∧ demoParse "]5\x7b" = Except.error demoParseErr := by
  refine ⟨?_, ?_, ?_⟩ <;> rfl

/-- C6 (amended): when the direct parse of a non-empty body fails with
`e`, `safeJsonParse` propagates exactly `e` (never the rescue attempt's own
error) if no opening delimiter or no closing delimiter exists; otherwise it
reparses `substring(i, j+1)` — whose JavaScript clamp-and-swap semantics is
`jsSubstring` — where `i` is the earliest `'{'`/`'['` index and `j` the
latest `'}'`/`']'` index, returning a successful reparse and propagating
exactly `e` when the reparse fails too. -/
theorem C6_rescue (parse : String → Except JsErr Json) (body : String) (e : JsErr)
    (hb : ¬ body = "") (hp : parse body = Except.error e) :
    safeJsonParse parse body =
      (match firstDelimIdx body, lastCloseIdx body with
       | none, _ => Except.error e
       | some _, none => Except.error e
       | some i, some j =>
         match parse (jsSubstring body (i : Int) ((j : Int) + 1)) with
         | Except.ok v => Except.ok v
         | Except.error _ => Except.error e) := by
  unfold safeJsonParse
  rw [if_neg hb, hp]
  cases hfd : firstDelimIdx body with
  | none =>
    have hs : rescueStartIndex body = -1 := by rw [rescueStartIndex_eq, hfd]
    simp [hs]
  | some i =>
    have hs : rescueStartIndex body = (i : Int) := by rw [rescueStartIndex_eq, hfd]
    have hs' : ¬ rescueStartIndex body = -1 := by
      rw [hs]
      omega
    cases hlc : lastCloseIdx body with
    | none =>
      have he : rescueEndIndex body = -1 := by rw [rescueEndIndex_eq, hlc]
      simp [hs', he]
    | some j =>
      have he : rescueEndIndex body = (j : Int) := by rw [rescueEndIndex_eq, hlc]
      have he' : ¬ rescueEndIndex body = -1 := by
        rw [he]
        omega
      simp [hs', he', hs, he]

/-- C6 (witness): the amended rescue theorem evaluated at the body
`"a5b"`, which has no delimiters at all, so the original error comes back. -/
theorem C6_rescue_witness :
    demoParse "a5b" = Except.error demoParseErr
    ∧ safeJsonParse demoParse "a5b" = Except.error demoParseErr := by
  constructor
  · rfl
  · have h := C6_rescue demoParse "a5b" demoParseErr (by decide) rfl
    exact h.trans rfl

/-- The rejection produced when the abort signal fires mid-request. -/
def abortErr : JsErr :=
  { name := "AbortError", message := Json.str "Aborted" }

/-- C4: a request that fails with the abort signal (an error named
`AbortError`) resolves to `null` whenever `returnNullOnAbort` is not
explicitly `false` — whatever interceptors are configured — and with
`returnNullOnAbort: false` it instead takes the normal error path, which
raises the error when no `onError` interceptor is configured. -/
theorem C4_abort_to_null (parse : String → Except JsErr Json) (cfg : ClientConfig)
    (callOnResponse : Option (Json → Json)) (e : JsErr)
    (habort : e.name = "AbortError") :
    (¬ cfg.returnNullOnAbort = some false →
      sendOutcome parse cfg callOnResponse (FetchOutcome.reject e) = Except.ok Json.null)
    ∧ (cfg.returnNullOnAbort = some false → cfg.onError = none →
      sendOutcome parse cfg callOnResponse (FetchOutcome.reject e) = Except.error e) := by
  constructor
  · intro h
    simp [sendOutcome, sendAttempt, habort, h]
  · intro h hoe
    simp [sendOutcome, sendAttempt, habort, h, hoe]

/-- C4 (witness): the abort theorem evaluated at a default configuration
and at `returnNullOnAbort: false`. -/
theorem C4_abort_to_null_witness :
    sendOutcome demoParse {} none (FetchOutcome.reject abortErr) = Except.ok Json.null
    ∧ sendOutcome demoParse { returnNullOnAbort := some false } none
        (FetchOutcome.reject abortErr) = Except.error abortErr := by
  constructor
  · exact (C4_abort_to_null demoParse {} none abortErr rfl).1 (by simp)
  · exact (C4_abort_to_null demoParse { returnNullOnAbort := some false } none
      abortErr rfl).2 rfl rfl

/-- C7 (counterexample): a 404 whose body parses to an object with no
`message` field yields the constant message `"Request failed"`, which
contains no digit at all, while the claim demands a generic message of the
form `"request failed with status 404"` naming the status. -/
theorem C7_counterexample :
    sendOutcome demoParse {} none (FetchOutcome.response false 404 "5")
      = Except.error (mkApiError (Json.str "Request failed") 404 (Sum.inl (Json.num 5)))
    ∧ (∀ c ∈ "Request failed".toList, ¬ c.isDigit = true) := by
  constructor
  · rfl
  · decide

/-- C7 (amended): a non-success response whose body parsed to `j` raises an
`ApiError` carrying the HTTP status, `j` as data, and as message the body's
own `message` field when present and truthy, else the fixed string
`"Request failed"` (which does not name the status); shown with no
`onError` interceptor configured, which would otherwise consume the
error. -/
theorem C7_http_error (parse : String → Except JsErr Json) (cfg : ClientConfig)
    (callOnResponse : Option (Json → Json)) (status : Int) (text : String) (j : Json)
    (hparse : safeJsonParse parse text = Except.ok j)
    (hoe : cfg.onError = none) :
    sendOutcome parse cfg callOnResponse (FetchOutcome.response false status text)
      = Except.error
          (mkApiError (jsOr (getMember j "message") (Json.str "Request failed"))
            status (Sum.inl j))
    ∧ (∀ v, getMember j "message" = some v → jsTruthy v = true →
        jsOr (getMember j "message") (Json.str "Request failed") = v)
    ∧ (getMember j "message" = none →
        jsOr (getMember j "message") (Json.str "Request failed")
          = Json.str "Request failed") := by
  refine ⟨?_, ?_, ?_⟩
  · simp [sendOutcome, sendAttempt, hparse, hoe, mkApiError]
  · intro v hv htr
    simp [jsOr, hv, htr]
  · intro hv
    simp [jsOr, hv]

/-- The body `{"message":"bad"}` as `JSON.parse` returns it. -/
def msgParse : String → Except JsErr Json := fun _ =>
  Except.ok (Json.obj [("message", Json.str "bad")])

/-- C7 (witness): the amended theorem evaluated at a 404 whose body carries
`message: "bad"`. -/
theorem C7_http_error_witness :
    sendOutcome msgParse {} none (FetchOutcome.response false 404 "x")
      = Except.error
          (mkApiError (Json.str "bad") 404
            (Sum.inl (Json.obj [("message", Json.str "bad")]))) := by
  exact (C7_http_error msgParse {} none 404 "x"
    (Json.obj [("message", Json.str "bad")]) rfl rfl).1

/-- C9: an HTTP-success response with an empty body text resolves the call
to `null` without raising (with no `onResponse` interceptors configured to
transform it), because `safeJsonParse` maps a falsy body to `null` — so at
the call site it is the same value `null` that an abort produces under the
default `returnNullOnAbort`. -/
theorem C9_empty_body_null (parse : String → Except JsErr Json) (cfg : ClientConfig)
    (status : Int) (e : JsErr)
    (hor : cfg.onResponse = none)
    (habort : e.name = "AbortError")
    (hrnoa : ¬ cfg.returnNullOnAbort = some false) :
    safeJsonParse parse "" = Except.ok Json.null
    ∧ sendOutcome parse cfg none (FetchOutcome.response true status "") = Except.ok Json.null
    ∧ sendOutcome parse cfg none (FetchOutcome.reject e) = Except.ok Json.null := by
  refine ⟨rfl, ?_, ?_⟩
  · simp [sendOutcome, sendAttempt, safeJsonParse, hor]
  · simp [sendOutcome, sendAttempt, habort, hrnoa]

/-- C9 (witness): the empty-body theorem evaluated at a default
configuration and status 200. -/
theorem C9_empty_body_null_witness :
    sendOutcome demoParse {} none (FetchOutcome.response true 200 "") = Except.ok Json.null
    ∧ sendOutcome demoParse {} none (FetchOutcome.reject abortErr) = Except.ok Json.null := by
  have h := C9_empty_body_null demoParse {} 200 abortErr rfl rfl (by simp)
  exact ⟨h.2.1, h.2.2⟩

theorem register_ok_inv (s : RegistryState) (name : String) (cfg : ClientConfig) (d : Bool)
    (c : ApiClientInst) (s2 : RegistryState)
    (h : register s name cfg d = Except.ok (c, s2)) :
    ¬ name = ""
    ∧ s.registeredClients.find? (fun e => e.1 = name) = none
    ∧ (d = true → s.defaultClientName = none)
    ∧ c = createApiClient cfg
    ∧ s2.registeredClients = s.registeredClients ++ [(name, createApiClient cfg)]
    ∧ s2.defaultClientName = (if d = true then some name else s.defaultClientName) := by
  unfold register at h
  by_cases h1 : name = ""
  · rw [if_pos h1] at h
    exact absurd h (by simp)
  rw [if_neg h1] at h
  by_cases h2 : ((s.registeredClients.find? (fun e => e.1 = name)).isSome = true)
  · rw [if_pos h2] at h
    exact absurd h (by simp)
  rw [if_neg h2] at h
  by_cases h3 : ((d && s.defaultClientName.isSome) = true)
  · rw [if_pos h3] at h
    exact absurd h (by simp)
  rw [if_neg h3] at h
  have h4 : (Except.ok (createApiClient cfg,
      ({ registeredClients := s.registeredClients ++ [(name, createApiClient cfg)],
         defaultClientName := if d then some name else s.defaultClientName } : RegistryState))
      : Except String (ApiClientInst × RegistryState)) = Except.ok (c, s2) := h
  have h' := Except.ok.inj h4
  injection h' with hc hs
  refine ⟨h1, Option.not_isSome_iff_eq_none.mp h2, ?_, hc.symm, ?_, ?_⟩
  · intro hdt
    rcases hdc : s.defaultClientName with _ | n
    · rfl
    · rw [hdt, hdc] at h3
      simp at h3
  · rw [← hs]
  · rw [← hs]

/-- Whether a registry call threw. -/
def throws {α : Type} : Except String α → Bool
  | Except.error _ => true
  | Except.ok _ => false

/-- C8: the registry guards — `register` throws on an empty name (the
non-string half of the guard is subsumed by typing names as strings), on a
name already present, and on a second default (the single
`defaultClientName` slot makes more than one default unrepresentable);
successful registration preserves name uniqueness; `use()` with no name
throws when no default is set, and throws when the named client does not
exist. -/
theorem C8_registry_invariants (s : RegistryState) (name : String) (cfg : ClientConfig)
    (d : Bool) :
    throws (register s "" cfg d) = true
    ∧ (¬ lookupClient s name = none → throws (register s name cfg d) = true)
    ∧ (¬ s.defaultClientName = none → throws (register s name cfg true) = true)
    ∧ ((s.registeredClients.map Prod.fst).Nodup →
        ∀ c s2, register s name cfg d = Except.ok (c, s2) →
          (s2.registeredClients.map Prod.fst).Nodup)
    ∧ (s.defaultClientName = none → throws (use s none) = true)
    ∧ (∀ n, ¬ n = "" → lookupClient s n = none → throws (use s (some n)) = true) := by
  refine ⟨?_, ?_, ?_, ?_, ?_, ?_⟩
  · simp [register, throws]
  · intro h
    have hf : (s.registeredClients.find? (fun e => e.1 = name)).isSome = true := by
      cases hfv : s.registeredClients.find? (fun e => e.1 = name) with
      | none => exact absurd (by simp [lookupClient, hfv]) h
      | some _ => rfl
    by_cases hn : name = "" <;> simp [register, hn, hf, throws]
  · intro h
    have hd : s.defaultClientName.isSome = true := by
      cases hdv : s.defaultClientName with
      | none => exact absurd hdv h
      | some _ => rfl
    by_cases hn : name = ""
    · simp [register, hn, throws]
    · by_cases hf : (s.registeredClients.find? (fun e => e.1 = name)).isSome = true <;>
        simp [register, hn, hf, hd, throws]
  · intro hnd c s2 hok
    obtain ⟨-, hfind, -, -, hcl, -⟩ := register_ok_inv s name cfg d c s2 hok
    have hnotmem : name ∉ s.registeredClients.map Prod.fst := by
      intro hmem
      obtain ⟨e, he, hfst⟩ := List.mem_map.mp hmem
      have := List.find?_eq_none.mp hfind e he
      simp [hfst] at this
    rw [hcl, List.map_append]
    simp only [List.nodup_append, List.map_cons, List.map_nil]
    refine ⟨hnd, by simp, ?_⟩
    intro x hx
    simp only [List.mem_singleton]
    intro hxe
    exact hnotmem (hxe ▸ hx)
  · intro h
    simp [use, h, throws]
  · intro n hn hl
    simp [use, hn, hl, throws]

/-- The registry after `register(emptyRegistry, "main", {}, true)`. -/
def regMain : RegistryState :=
  { registeredClients := [("main", createApiClient {})], defaultClientName := some "main" }

/-- C8 (witness): the registry-guard theorem evaluated on `regMain` — a
duplicate name, a second default, `use()` with no default, and a missing
name all error. -/
theorem C8_registry_invariants_witness :
    throws (register regMain "" {} false) = true
    ∧ throws (register regMain "main" {} false) = true
    ∧ throws (register regMain "other" {} true) = true
    ∧ throws (use emptyRegistry none) = true
    ∧ throws (use regMain (some "missing")) = true := by
  have h := C8_registry_invariants regMain "main" {} false
  have h2 := C8_registry_invariants regMain "other" {} false
  have h3 := C8_registry_invariants emptyRegistry "x" {} false
  refine ⟨h.1, ?_, ?_, ?_, ?_⟩
  · refine h.2.1 ?_
    rw [show lookupClient regMain "main" = some (createApiClient {}) from rfl]
    simp
  · refine h2.2.2.1 ?_
    rw [show regMain.defaultClientName = some "main" from rfl]
    simp
  · exact h3.2.2.2.2.1 rfl
  · exact h.2.2.2.2.2 "missing" (by decide) rfl

theorem lookupClient_applyOp (s : RegistryState) (op : RegOp) (name : String)
    (c : ApiClientInst) (h : lookupClient s name = some c) :
    lookupClient (applyOp s op) name = some c := by
  unfold applyOp
  cases hr : register s op.name op.config op.isDefault with
  | error _ => exact h
  | ok r =>
    obtain ⟨-, -, -, -, hcl, -⟩ :=
      register_ok_inv s op.name op.config op.isDefault r.1 r.2 (by rw [hr])
    unfold lookupClient at h ⊢
    rw [hcl, List.find?_append]
    cases hf : s.registeredClients.find? (fun e => e.1 = name) with
    | none => rw [hf] at h; exact absurd h (by simp)
    | some e =>
      rw [hf] at h
      simp [Option.or]
      simpa using h

/-- C10: a successful `register(name, config, isDefault)` returns exactly the
client instance constructed from `config`, and `use(name)` returns that same
instance after any further sequence of `register` calls (a throwing call
leaves the registry untouched, and no operation removes entries). -/
theorem C10_register_returns_instance (s : RegistryState) (name : String)
    (cfg : ClientConfig) (d : Bool) (c : ApiClientInst) (s2 : RegistryState)
    (h : register s name cfg d = Except.ok (c, s2)) :
    c = createApiClient cfg
    ∧ ∀ ops : List RegOp, use (applyOps s2 ops) (some name) = Except.ok c := by
  obtain ⟨hn, hf, -, hc, hcl, -⟩ := register_ok_inv s name cfg d c s2 h
  refine ⟨hc, ?_⟩
  have hl : lookupClient s2 name = some c := by
    unfold lookupClient
    rw [hcl, List.find?_append, hf]
    simp [Option.or, hc]
  have main : ∀ ops : List RegOp, ∀ s3 : RegistryState, lookupClient s3 name = some c →
      lookupClient (applyOps s3 ops) name = some c := by
    intro ops
    induction ops with
    | nil => exact fun s3 h3 => h3
    | cons op rest ih =>
      intro s3 h3
      exact ih _ (lookupClient_applyOp s3 op name c h3)
  intro ops
  have hlk := main ops s2 hl
  unfold use
  simp [hn, hlk]

/-- C10 (witness): registering `"main"` on the empty registry returns the
instance built from the empty config, and `use("main")` still returns it
after a further registration. -/
theorem C10_register_returns_instance_witness :
    register emptyRegistry "main" {} true = Except.ok (createApiClient {}, regMain)
    ∧ use (applyOps regMain [RegOp.mk "payments" {} false]) (some "main")
        = Except.ok (createApiClient {}) := by
  have hreg : register emptyRegistry "main" {} true
      = Except.ok (createApiClient {}, regMain) := rfl
  exact ⟨hreg,
    (C10_register_returns_instance emptyRegistry "main" {} true _ _ hreg).2
      [RegOp.mk "payments" {} false]⟩

theorem getParam_setParam (p : Params) (k : String) (v : Json) :
    getParam (setParam p k v) k = some v := by
  simp [getParam, setParam, List.reverse_append]

theorem sendBody_ne_noop {D I E : Type} (st : HookSettings D I) (s : HookState D I E)
    (mode : Mode) (oneTime : Params) (net : NetOutcome D E) (mounted : Bool) (now : Nat)
    (hload : ¬ s.loading = allIdle) :
    ¬ sendBody st s mode oneTime net mounted now = (s, emptyTrace) := by
  intro heq
  unfold sendBody at heq
  by_cases hv : st.validateParams (finalParamsOf st s mode oneTime) = true
  · simp only [hv, Bool.not_true, if_false] at heq
    rcases net with d | _ | e <;> cases mounted <;>
      simp [requestTrace, emptyTrace, Prod.mk.injEq] at heq
  · simp only [hv, Bool.not_false, if_true] at heq
    simp only [Prod.mk.injEq] at heq
    have hl := congrArg HookState.loading heq.1
    exact hload (hl.symm.trans rfl)

/-- C1: while an initial load or refresh is in flight, `send` is a complete
no-op (state unchanged, no network call, no callbacks) exactly when the
trigger is not a pagination request with a pagination policy configured; a
pagination trigger with a policy configured passes the guard and is never
the no-op. -/
theorem C1_inflight_guard {D I E : Type} (st : HookSettings D I) (s : HookState D I E)
    (mode : Mode) (oneTime : Params) (net : NetOutcome D E) (mounted : Bool) (now : Nat)
    (h : s.loading.isInitialLoading = true ∨ s.loading.isRefreshing = true) :
    send st s mode oneTime net mounted now = (s, emptyTrace)
      ↔ ¬ (mode = Mode.pagination ∧ st.pagination.isSome = true) := by
  have hguard : (s.loading.isInitialLoading || s.loading.isRefreshing) = true := by
    rcases h with h1 | h1 <;> simp [h1]
  have hload : ¬ s.loading = allIdle := by
    intro he
    rw [he] at hguard
    simp [allIdle] at hguard
  constructor
  · intro heq
    by_contra hcon
    obtain ⟨hm, hp⟩ := hcon
    subst hm
    have hnone : st.pagination.isNone = false := by
      cases hps : st.pagination with
      | none => rw [hps] at hp; simp at hp
      | some pg => simp [hps]
    rw [send] at heq
    rw [if_neg (by simp [hnone])] at heq
    exact sendBody_ne_noop st s Mode.pagination oneTime net mounted now hload heq
  · intro hcon
    have hcond : ((s.loading.isInitialLoading || s.loading.isRefreshing)
        && (!(decide (mode = Mode.pagination)) || st.pagination.isNone)) = true := by
      by_cases hm : mode = Mode.pagination
      · cases hps : st.pagination with
        | none => simp [hguard, hps]
        | some pg => exact absurd ⟨hm, by simp [hps]⟩ hcon
      · simp [hguard, hm]
    rw [send, if_pos hcond]

/-- The hook settings with every option left at its default. -/
def settings0 : HookSettings Nat Nat := {}

/-- A freshly mounted hook instance: idle, nothing stored, nothing fetched. -/
def idleState : HookState Nat Nat Nat :=
  { params := [], error := none, loading := allIdle, response := HookResp.null,
    hasFetchedOnce := false, lastFetchTimestamp := none }

/-- C2 (counterexample): the claim says an abort-sentinel `null` resolution
and a post-unmount settlement are discarded with no state change and no
callbacks; but when `null` resolves while still mounted the `finally` block
runs — `onCompleted` is invoked (and the loading flags are written) — and a
rejection that settles after unmount still invokes `onError` (the `catch`
clause guards only `setError`, not the callback). -/
theorem C2_counterexample :
    (send settings0 idleState Mode.initial [] NetOutcome.nullResult true 0).2.onCompletedCalled
      = true
    ∧ (send settings0 idleState Mode.initial [] (NetOutcome.failure 7) false 0).2.onErrorCalled
      = true := by
  constructor
  · rfl
  · rfl

/-- C2 (amended): for a trigger that passes the guard and validation, when
the request settles after unmount no state is written beyond what the
trigger start already wrote (`midState`: flags set, error cleared) and no
callback runs except that a rejection still invokes `onError`; when the
abort-sentinel `null` resolves while still mounted, the response, error and
`hasFetchedOnce` are untouched and `onSuccess`/`onError` are skipped, but
the loading flags are cleared and `onCompleted` is invoked by the `finally`
block. -/
theorem C2_unmount_discard {D I E : Type} (st : HookSettings D I) (s : HookState D I E)
    (mode : Mode) (oneTime : Params) (net : NetOutcome D E) (now : Nat)
    (hguard : ¬ ((s.loading.isInitialLoading || s.loading.isRefreshing)
        && (!(decide (mode = Mode.pagination)) || st.pagination.isNone)) = true)
    (hval : st.validateParams (finalParamsOf st s mode oneTime) = true) :
    (send st s mode oneTime net false now =
      (midState mode s,
        match net with
        | NetOutcome.failure _ => { requestTrace st s mode oneTime with onErrorCalled := true }
        | _ => requestTrace st s mode oneTime))
    ∧ (send st s mode oneTime NetOutcome.nullResult true now =
      ({ midState mode s with loading := allIdle },
        { requestTrace st s mode oneTime with onCompletedCalled := true })) := by
  constructor
  · rw [send, if_neg hguard, sendBody]
    simp only [hval, Bool.not_true, if_false]
    rcases net with d | _ | e <;> rfl
  · rw [send, if_neg hguard, sendBody]
    simp [hval]

/-- C2 (witness): the amended discard theorem evaluated on a fresh idle
hook instance. -/
theorem C2_unmount_discard_witness :
    send settings0 idleState Mode.initial [] (NetOutcome.success 3) false 0
      = (midState Mode.initial idleState, requestTrace settings0 idleState Mode.initial [])
    ∧ send settings0 idleState Mode.initial [] NetOutcome.nullResult true 0
      = ({ midState Mode.initial idleState with loading := allIdle },
         { requestTrace settings0 idleState Mode.initial [] with onCompletedCalled := true }) := by
  have h := C2_unmount_discard settings0 idleState Mode.initial []
    (NetOutcome.success 3) 0 (by simp [idleState, allIdle]) rfl
  exact ⟨h.1, h.2⟩

/-- C3: for a pagination trigger with a policy configured (which always
passes the in-flight guard) whose parameters validate and whose request
succeeds while mounted — the merged parameter object carries
`page = stored metadata page (default 0) + 1`, the request body is
`filterParams` (identity by default) of that object, and the stored
response becomes `{results: merge(existing results, getResults(raw),
requested page), metadata: getMetadata(raw)}`. -/
theorem C3_pagination_merge {D I E : Type} (st : HookSettings D I) (s : HookState D I E)
    (oneTime : Params) (pg : PaginationPolicy D I) (d : D) (now : Nat)
    (hpg : st.pagination = some pg)
    (hval : st.validateParams (finalParamsOf st s Mode.pagination oneTime) = true) :
    getParam (currentParamsOf st s Mode.pagination oneTime) "page"
      = some (Json.num ((((metadataOf s.response).bind (fun m => m.page)).getD 0) + 1))
    ∧ (send st s Mode.pagination oneTime (NetOutcome.success d) true now).2.sentBody
      = some (st.filterParams (currentParamsOf st s Mode.pagination oneTime))
    ∧ (send st s Mode.pagination oneTime (NetOutcome.success d) true now).1.response
      = HookResp.paged
          (some (pg.merge (resultsOf s.response) (pg.getResults d)
            (some (Json.num ((((metadataOf s.response).bind (fun m => m.page)).getD 0) + 1)))))
          (pg.getMetadata d) := by
  have hpage : getParam (currentParamsOf st s Mode.pagination oneTime) "page"
      = some (Json.num ((((metadataOf s.response).bind (fun m => m.page)).getD 0) + 1)) := by
    rw [currentParamsOf, if_pos (by simp [hpg])]
    exact getParam_setParam _ _ _
  have hsend : send st s Mode.pagination oneTime (NetOutcome.success d) true now
      = sendBody st s Mode.pagination oneTime (NetOutcome.success d) true now := by
    rw [send, if_neg (by simp [hpg])]
  have hval' : st.validateParams (st.filterParams (currentParamsOf st s Mode.pagination oneTime))
      = true := hval
  refine ⟨hpage, ?_, ?_⟩
  · rw [hsend, sendBody]
    simp [hval', requestTrace, hpg, finalParamsOf]
  · rw [hsend, sendBody]
    simp [hval, hval', hpg, hpage]

/-- The reference pagination policy used to evaluate the theorem: one item
per page payload, append-merge. -/
def pagePolicy0 : PaginationPolicy Nat Nat :=
  { getResults := fun d => [d],
    getMetadata := fun _ => some { page := some 7, hasMore := true },
    merge := fun old new _ => old.getD [] ++ new }

/-- Hook settings with `pagePolicy0` configured. -/
def settingsPg : HookSettings Nat Nat := { pagination := some pagePolicy0 }

/-- A hook instance that already holds page 3 with results `[1, 2]`. -/
def statePg : HookState Nat Nat Nat :=
  { params := [], error := none, loading := allIdle,
    response := HookResp.paged (some [1, 2]) (some { page := some 3, hasMore := true }),
    hasFetchedOnce := true, lastFetchTimestamp := none }

/-- C3 (witness): the pagination theorem evaluated on `statePg` — the
request goes out with `page = 4` and the stored response becomes the merge
`[1, 2, 5]` under the new metadata. -/
theorem C3_pagination_merge_witness :
    getParam (currentParamsOf settingsPg statePg Mode.pagination []) "page"
      = some (Json.num 4)
    ∧ (send settingsPg statePg Mode.pagination [] (NetOutcome.success 5) true 9).2.sentBody
      = some [("page", Json.num 4)]
    ∧ (send settingsPg statePg Mode.pagination [] (NetOutcome.success 5) true 9).1.response
      = HookResp.paged (some [1, 2, 5]) (some { page := some 7, hasMore := true }) := by
  have h := C3_pagination_merge settingsPg statePg [] pagePolicy0 5 9 rfl rfl
  exact ⟨h.1, h.2.1.trans rfl, h.2.2.trans rfl⟩

/-- A hook instance with an initial load in flight. -/
def busyState : HookState Nat Nat Nat :=
  { idleState with
    loading := { isInitialLoading := true, isRefreshing := false, isLoadingMore := false } }

/-- `busyState` with the pagination-shaped response of `statePg`. -/
def busyPgState : HookState Nat Nat Nat :=
  { statePg with
    loading := { isInitialLoading := true, isRefreshing := false, isLoadingMore := false } }

/-- C1 (witness): the guard theorem evaluated while an initial load is in
flight — `send("initial")` is the exact no-op, and `send("pagination")`
with a policy configured is not. -/
theorem C1_inflight_guard_witness :
    send settings0 busyState Mode.initial [] NetOutcome.nullResult true 0
      = (busyState, emptyTrace)
    ∧ ¬ send settingsPg busyPgState Mode.pagination [] NetOutcome.nullResult true 0
      = (busyPgState, emptyTrace) := by
  constructor
  · exact (C1_inflight_guard settings0 busyState Mode.initial [] NetOutcome.nullResult
      true 0 (Or.inl rfl)).mpr (by simp)
  · intro heq
    exact (C1_inflight_guard settingsPg busyPgState Mode.pagination [] NetOutcome.nullResult
      true 0 (Or.inl rfl)).mp heq ⟨rfl, rfl⟩
